import Mathlib

/-!
Verification of the transport core of `server.ts` (graphql-ws subscription server).

The development shallowly embeds the code of `src/src/server.ts`:

* the binary message codec (`buildMessage`, `parseMessage`) over byte lists,
  with the external ECMAScript JSON library abstracted as a stringify/parse
  pair (a concrete executable model `jsonStringify`/`jsonParse` is provided
  for witnesses);
* the per-connection server state machine (`ConnSt`, `handleInbound`,
  `startOp`, `unsubscribe`, keep-alive timer, close teardown), with the
  external collaborators (connect hook, operation hook, validation, the
  executor and its result sequence) supplied as oracle data, and the
  observable behaviour captured as an event trace (`Ev`).

Bytes are `Nat` values; 32-bit header fields are stored little-endian with an
explicit `% 2 ^ 32`. Asynchronous promise chains are linearized per inbound
message, and the ordering effect of attaching continuations to the one-time
initialization promise is modelled by an explicit FIFO queue of continuations
(`ConnSt.deferred`), mirroring microtask FIFO semantics of a single promise.
-/

namespace Gws

/-! ## Message type codes

Modelled from the spec: `message-type.ts` is not under `src/`; the spec (§6)
fixes a set of numeric, stable, pairwise distinct message type codes
(connection_init, connection_ack, connection_error, connection_terminate,
connection_keep_alive, start, data, error, complete, stop). The concrete
numbers below are representative; every result depends only on which code a
branch compares against, never on the numeral itself. -/

namespace MessageType

def GQL_CONNECTION_INIT : Nat := 0
def GQL_CONNECTION_ACK : Nat := 1
def GQL_CONNECTION_ERROR : Nat := 2
def GQL_CONNECTION_KEEP_ALIVE : Nat := 3
def GQL_CONNECTION_TERMINATE : Nat := 4
def GQL_START : Nat := 5
def GQL_DATA : Nat := 6
def GQL_ERROR : Nat := 7
def GQL_COMPLETE : Nat := 8
def GQL_STOP : Nat := 9

end MessageType

/-! ## JSON values

Model of the value space exchanged in control payloads. The list-shaped
constructors are given as a mutual inductive so that the serializer below is
structurally recursive (and hence kernel-reducible for concrete witnesses).
Strings are ASCII byte sequences that contain no character JSON escapes
(no quote, backslash or control byte); numbers are naturals. This is the
subset the protocol's own frames use; the round-trip theorems for the codec
are stated for an arbitrary external stringify/parse pair and only the
witnesses evaluate this concrete model. -/

mutual
inductive Json where
  | null
  | bool (b : Bool)
  | num (n : Nat)
  | str (s : List Nat)
  | arr (elems : JsonList)
  | obj (fields : JsonFields)
inductive JsonList where
  | nil
  | cons (head : Json) (tail : JsonList)
inductive JsonFields where
  | nil
  | cons (key : List Nat) (value : Json) (tail : JsonFields)
end

/-- ASCII bytes of a Lean string literal (used to write JSON keys/strings). -/
def strBytes (s : String) : List Nat := s.toList.map Char.toNat

/-- Decimal digit bytes of a natural number, as ECMAScript stringifies it. -/
def natDigits (n : Nat) : List Nat := (Nat.toDigits 10 n).map Char.toNat

/-! Concrete model of `JSON.stringify` on the value subset above: no
whitespace, keys and strings emitted verbatim between quotes. -/

mutual
def jsonStringify : Json → List Nat
  | .null => [110, 117, 108, 108]
  | .bool true => [116, 114, 117, 101]
  | .bool false => [102, 97, 108, 115, 101]
  | .num n => natDigits n
  | .str s => 34 :: s ++ [34]
  | .arr es => 91 :: stringifyElems es ++ [93]
  | .obj fs => 123 :: stringifyFields fs ++ [125]
def stringifyElems : JsonList → List Nat
  | .nil => []
  | .cons e .nil => jsonStringify e
  | .cons e (.cons f t) => jsonStringify e ++ 44 :: stringifyElems (.cons f t)
def stringifyFields : JsonFields → List Nat
  | .nil => []
  | .cons k v .nil => 34 :: k ++ [34, 58] ++ jsonStringify v
  | .cons k v (.cons k2 v2 t) =>
    34 :: k ++ [34, 58] ++ jsonStringify v ++ 44 :: stringifyFields (.cons k2 v2 t)
end

/-- Splits a JSON string body at its closing quote (byte 34). -/
def splitJsonString : List Nat → Option (List Nat × List Nat)
  | [] => none
  | 34 :: r => some ([], r)
  | c :: r =>
    match splitJsonString r with
    | some (s, r') => some (c :: s, r')
    | none => none

/-- ASCII decimal digit test. -/
def isDigitByte (c : Nat) : Bool := 48 ≤ c && c ≤ 57

/-! Concrete model of `JSON.parse` on the same subset: fuel-indexed
recursive descent. `JSON.parse` of a text that is not a JSON value — in
particular of the empty string — throws; the model returns `none` there. -/

mutual
def parseVal : Nat → List Nat → Option (Json × List Nat)
  | 0, _ => none
  | _ + 1, [] => none
  | fuel + 1, c :: rest =>
    if c = 110 then
      match rest with
      | 117 :: 108 :: 108 :: r => some (.null, r)
      | _ => none
    else if c = 116 then
      match rest with
      | 114 :: 117 :: 101 :: r => some (.bool true, r)
      | _ => none
    else if c = 102 then
      match rest with
      | 97 :: 108 :: 115 :: 101 :: r => some (.bool false, r)
      | _ => none
    else if c = 34 then
      match splitJsonString rest with
      | some (s, r) => some (.str s, r)
      | none => none
    else if c = 91 then
      match rest with
      | 93 :: r => some (.arr .nil, r)
      | _ =>
        match parseElems fuel rest with
        | some (es, 93 :: r) => some (.arr es, r)
        | _ => none
    else if c = 123 then
      match rest with
      | 125 :: r => some (.obj .nil, r)
      | _ =>
        match parseFields fuel rest with
        | some (fs, 125 :: r) => some (.obj fs, r)
        | _ => none
    else if isDigitByte c then
      some (.num ((c :: rest.takeWhile isDigitByte).foldl (fun a d => a * 10 + (d - 48)) 0),
        rest.dropWhile isDigitByte)
    else none
def parseElems : Nat → List Nat → Option (JsonList × List Nat)
  | 0, _ => none
  | fuel + 1, bs =>
    match parseVal fuel bs with
    | some (v, 44 :: r) =>
      match parseElems fuel r with
      | some (vs, r') => some (.cons v vs, r')
      | none => none
    | some (v, r) => some (.cons v .nil, r)
    | none => none
def parseFields : Nat → List Nat → Option (JsonFields × List Nat)
  | 0, _ => none
  | fuel + 1, bs =>
    match bs with
    | 34 :: r =>
      match splitJsonString r with
      | some (k, 58 :: r') =>
        match parseVal fuel r' with
        | some (v, 44 :: r'') =>
          match parseFields fuel r'' with
          | some (fs, r3) => some (.cons k v fs, r3)
          | none => none
        | some (v, r'') => some (.cons k v .nil, r'')
        | none => none
      | _ => none
    | _ => none
end

/-- Model of `JSON.parse`: the whole text must be consumed by one value. -/
def jsonParse (bs : List Nat) : Option Json :=
  match parseVal (bs.length + 1) bs with
  | some (v, []) => some v
  | _ => none

/-! ## Binary codec

`server.ts` lines 252–278 (`parseMessage`) and 538–555 (`buildMessage`).
A frame is a byte list; `DataView.setUint32/getUint32` with `littleEndian =
true` become `le32`/`getU32` (ECMAScript coerces the stored value with
ToUint32, i.e. modulo `2 ^ 32`). -/

/-- Little-endian bytes of a 32-bit store of `v` (mirrors `setUint32(_, v, true)`). -/
def le32 (v : Nat) : List Nat :=
  [v % 256, v / 256 % 256, v / 65536 % 256, v / 16777216 % 256]

/-- Little-endian 32-bit read at byte offset `off` (mirrors `getUint32(off, true)`). -/
def getU32 (buf : List Nat) (off : Nat) : Nat :=
  buf.getD off 0 + 256 * buf.getD (off + 1) 0 + 65536 * buf.getD (off + 2) 0 +
    16777216 * buf.getD (off + 3) 0

/-- Result of `parseMessage`: either a file-chunk payload (`GQL_DATA` frames,
fields `fileId`/`currentChunk`/`chunks` plus the remaining bytes), or a
control payload decoded from JSON text. -/
inductive ParsedFrame where
  | file (id ty fileId currentChunk chunks : Nat) (buffer : List Nat)
  | control (id ty : Nat) (payload : Json)

/-- `server.ts` 538–555: 8-byte header (`setUint32(0, id, true)`,
`setUint32(4, type, true)`) followed by the JSON serialization of the payload.
`JSON.stringify(payload) || ''` turns an absent payload into the empty
string, so an absent payload contributes zero payload bytes. The external
`JSON.stringify` is a parameter; payloads are ASCII JSON texts, for which the
string length used to size the buffer equals the byte length. -/
def buildMessage (stringify : Json → List Nat) (id ty : Nat) (payload : Option Json) :
    List Nat :=
  le32 id ++ le32 ty ++
    (match payload with
     | none => []
     | some p => stringify p)

/-- `server.ts` 252–278: read `id` at offset 0 and `type` at offset 4; for
`GQL_DATA` read the three little-endian 32-bit file fields at offsets 8, 12,
16 and take the bytes from offset 20 as the chunk content (`buffer.slice(20)`);
for every other type JSON-parse the bytes from offset 8
(`JSON.parse(Buffer.from(buffer, 8).toString())`). A `DataView` read past the
end of the buffer and a `JSON.parse` failure throw; both are modelled as
`none`. -/
def parseMessage (parseJ : List Nat → Option Json) (buffer : List Nat) :
    Option ParsedFrame :=
  if buffer.length < 8 then none
  else
    let id := getU32 buffer 0
    let ty := getU32 buffer 4
    if ty = MessageType.GQL_DATA then
      if buffer.length < 20 then none
      else
        some (.file id ty (getU32 buffer 8) (getU32 buffer 12) (getU32 buffer 16)
          (buffer.drop 20))
    else
      (parseJ (buffer.drop 8)).map (fun p => .control id ty p)

/-- Modelled from the spec: the encoder of file-chunk frames is client-side
code of this repository that is not under `src/` (the server's `buildMessage`
serializes every payload as JSON text and has no binary branch). The spec
(§4.2) fixes the wire layout: the 8-byte header, then three little-endian
32-bit fields — file id, current chunk index, total chunk count — then the
raw chunk bytes. -/
def buildFileChunkMessage (id fileId currentChunk chunks : Nat) (content : List Nat) :
    List Nat :=
  le32 id ++ le32 MessageType.GQL_DATA ++ le32 fileId ++ le32 currentChunk ++
    le32 chunks ++ content

/-! Codec lemmas. -/

theorem le32_decomp (a : Nat) :
    a % 256 + 256 * (a / 256 % 256) + 65536 * (a / 65536 % 256) +
      16777216 * (a / 16777216 % 256) = a % 4294967296 := by
  omega

theorem getU32_le32_here (a : Nat) (rest : List Nat) :
    getU32 (le32 a ++ rest) 0 = a % 4294967296 := by
  show a % 256 + 256 * (a / 256 % 256) + 65536 * (a / 65536 % 256) +
      16777216 * (a / 16777216 % 256) = a % 4294967296
  exact le32_decomp a

theorem getU32_le32_skip (a : Nat) (rest : List Nat) (n : Nat) :
    getU32 (le32 a ++ rest) (n + 4) = getU32 rest n := rfl

theorem length_le32_append (a : Nat) (rest : List Nat) :
    (le32 a ++ rest).length = rest.length + 4 := by
  simp [le32]

theorem drop4_le32_append (a : Nat) (rest : List Nat) (n : Nat) :
    (le32 a ++ rest).drop (n + 4) = rest.drop n := rfl

/-- C1 (amended). For every id and type below `2 ^ 32`, the type not being the
data-message type, and every payload that the external JSON library
round-trips, `parseMessage` inverts `buildMessage`: the original id, the
original type and a structurally equal payload are reproduced. -/
theorem c1_control_roundtrip (stringify : Json → List Nat)
    (parseJ : List Nat → Option Json) (id ty : Nat) (p : Json)
    (hid : id < 2 ^ 32) (hty : ty < 2 ^ 32) (hnd : ty ≠ MessageType.GQL_DATA)
    (hrt : parseJ (stringify p) = some p) :
    parseMessage parseJ (buildMessage stringify id ty (some p)) =
      some (ParsedFrame.control id ty p) := by
  have hbuf : buildMessage stringify id ty (some p) = le32 id ++ (le32 ty ++ stringify p) := by
    simp [buildMessage]
  have hlen : ¬ (buildMessage stringify id ty (some p)).length < 8 := by
    rw [hbuf, length_le32_append, length_le32_append]
    omega
  have h0 : getU32 (buildMessage stringify id ty (some p)) 0 = id := by
    rw [hbuf, getU32_le32_here]
    omega
  have h4 : getU32 (buildMessage stringify id ty (some p)) 4 = ty := by
    rw [hbuf, show (4 : Nat) = 0 + 4 from rfl, getU32_le32_skip, getU32_le32_here]
    omega
  have hdrop : (buildMessage stringify id ty (some p)).drop 8 = stringify p := by
    rw [hbuf, show (8 : Nat) = 4 + 4 from rfl, drop4_le32_append, drop4_le32_append,
      List.drop_zero]
  rw [parseMessage, if_neg hlen]
  simp only [h0, h4, if_neg hnd, hdrop, hrt, Option.map_some']

/-- C1 witness payload: the JSON object `{"query":"hello"}`. -/
def c1SamplePayload : Json :=
  Json.obj (JsonFields.cons (strBytes "query") (Json.str (strBytes "hello")) JsonFields.nil)

/-- C1 witness: the round trip evaluated at id 3, type `GQL_STOP`, payload
`{"query":"hello"}`, with the concrete JSON model discharging the external
round-trip hypothesis. -/
theorem c1_control_roundtrip_witness :
    (3 < 2 ^ 32 ∧ 9 < 2 ^ 32 ∧ (9 : Nat) ≠ MessageType.GQL_DATA ∧
      jsonParse (jsonStringify c1SamplePayload) = some c1SamplePayload) ∧
    parseMessage jsonParse (buildMessage jsonStringify 3 9 (some c1SamplePayload)) =
      some (ParsedFrame.control 3 9 c1SamplePayload) :=
  ⟨⟨by norm_num, by norm_num, by decide, rfl⟩,
    c1_control_roundtrip jsonStringify jsonParse 3 9 c1SamplePayload
      (by norm_num) (by norm_num) (by decide) rfl⟩

/-- C1 counterexample: an absent payload does not encode as an empty JSON
object. `JSON.stringify(undefined) || ''` makes `buildMessage` emit zero
payload bytes (not the two bytes `{}` of an empty object), and decoding such
a frame fails, because `JSON.parse` of the empty string throws. -/
theorem c1_absent_payload_counterexample :
    (buildMessage jsonStringify 3 9 none).drop 8 = [] ∧
    jsonStringify (Json.obj JsonFields.nil) = [123, 125] ∧
    parseMessage jsonParse (buildMessage jsonStringify 3 9 none) = none ∧
    parseMessage jsonParse (buildMessage jsonStringify 3 9 none) ≠
      some (ParsedFrame.control 3 9 (Json.obj JsonFields.nil)) :=
  ⟨rfl, rfl, rfl, by
    intro h
    have h' : (none : Option ParsedFrame) =
        some (ParsedFrame.control 3 9 (Json.obj JsonFields.nil)) := h
    exact Option.noConfusion h'⟩

/-- C6: decoding inverts the file-chunk encoding. For every id, file id,
chunk index, chunk count below `2 ^ 32` and every chunk content,
`parseMessage` recovers the id, the `GQL_DATA` type, the three little-endian
32-bit fields read at offsets 8, 12 and 16, and the byte-exact content from
offset 20 on. -/
theorem c6_file_chunk_roundtrip (parseJ : List Nat → Option Json)
    (id fileId currentChunk chunks : Nat) (content : List Nat)
    (hid : id < 2 ^ 32) (hf : fileId < 2 ^ 32) (hc : currentChunk < 2 ^ 32)
    (hk : chunks < 2 ^ 32) :
    parseMessage parseJ (buildFileChunkMessage id fileId currentChunk chunks content) =
      some (ParsedFrame.file id MessageType.GQL_DATA fileId currentChunk chunks content) := by
  have hbuf : buildFileChunkMessage id fileId currentChunk chunks content =
      le32 id ++ (le32 MessageType.GQL_DATA ++ (le32 fileId ++ (le32 currentChunk ++
        (le32 chunks ++ content)))) := by
    simp [buildFileChunkMessage]
  set msg := buildFileChunkMessage id fileId currentChunk chunks content with hmsg
  have hlen : msg.length = content.length + 20 := by
    rw [hbuf]
    rw [length_le32_append, length_le32_append, length_le32_append, length_le32_append,
      length_le32_append]
  have h0 : getU32 msg 0 = id := by
    rw [hbuf, getU32_le32_here]; omega
  have h4 : getU32 msg 4 = MessageType.GQL_DATA := by
    rw [hbuf, show (4 : Nat) = 0 + 4 from rfl, getU32_le32_skip, getU32_le32_here]
    decide
  have h8 : getU32 msg 8 = fileId := by
    rw [hbuf, show (8 : Nat) = 0 + 4 + 4 from rfl, getU32_le32_skip, getU32_le32_skip,
      getU32_le32_here]
    omega
  have h12 : getU32 msg 12 = currentChunk := by
    rw [hbuf, show (12 : Nat) = 0 + 4 + 4 + 4 from rfl, getU32_le32_skip, getU32_le32_skip,
      getU32_le32_skip, getU32_le32_here]
    omega
  have h16 : getU32 msg 16 = chunks := by
    rw [hbuf, show (16 : Nat) = 0 + 4 + 4 + 4 + 4 from rfl, getU32_le32_skip,
      getU32_le32_skip, getU32_le32_skip, getU32_le32_skip, getU32_le32_here]
    omega
  have hdrop : msg.drop 20 = content := by
    rw [hbuf, show (20 : Nat) = 0 + 4 + 4 + 4 + 4 + 4 from rfl, drop4_le32_append,
      drop4_le32_append, drop4_le32_append, drop4_le32_append, drop4_le32_append,
      List.drop_zero]
  rw [parseMessage, if_neg (by omega)]
  simp only [h0, h4, if_neg (by omega : ¬ msg.length < 20), h8, h12, h16, hdrop]
  simp

/-- C6 witness: the file-chunk round trip evaluated at concrete field values
and a three-byte chunk content. -/
theorem c6_file_chunk_roundtrip_witness :
    (7 < 2 ^ 32 ∧ 42 < 2 ^ 32 ∧ 1 < 2 ^ 32 ∧ 2 < 2 ^ 32) ∧
    parseMessage jsonParse (buildFileChunkMessage 7 42 1 2 [10, 20, 30]) =
      some (ParsedFrame.file 7 MessageType.GQL_DATA 42 1 2 [10, 20, 30]) :=
  ⟨⟨by norm_num, by norm_num, by norm_num, by norm_num⟩,
    c6_file_chunk_roundtrip jsonParse 7 42 1 2 [10, 20, 30]
      (by norm_num) (by norm_num) (by norm_num) (by norm_num)⟩

/-! ## Server state machine

Model of the per-connection behaviour of `SubscriptionServer`
(`server.ts` 139–536). External collaborators — the connect hook, the
operation hook, `parse`, `validate`, the executor and the result sequence it
yields — are supplied as oracle data attached to each inbound start message.
The observable actions of the server are collected as an event trace. -/

/-- A JavaScript error object as the result-delivery code observes it:
`name`, `message`, its enumerable own keys (`Object.keys(e)`), and the
optional `errors` field the outer catch probes (`if (e.errors)`). -/
structure JsError where
  name : String
  message : String
  enumKeys : List String := []
  errorsField : Option (List String) := none

/-- Payload of an outbound frame, as handed to `sendMessage`/`sendError`. -/
inductive OutPayload where
  | json (v : Json)
  | errMsg (m : String)
  | errVal (e : JsError)
  | nameMessage (n m : String)
  | empty

/-- Observable actions of the connection handler. `send` records a frame
actually written to the socket; hook invocations, registry updates, the
executor call and file-stream pushes are recorded explicitly. `beginHandle i`
marks the moment the gated continuation of inbound message number `i` starts
running (the body of its `initPromise.then`). -/
inductive Ev where
  | send (opId : Option Nat) (ty : Nat) (payload : OutPayload)
  | opReturn (opId : Nat)
  | opCompleteHook (opId : Nat)
  | registerPlaceholder (opId : Nat)
  | registerOp (opId : Nat)
  | callExecutor (opId : Nat)
  | fileNext (key : String) (currentChunk : Nat) (buffer : List Nat)
  | disconnectHook
  | closeSocket (code : Option Nat)
  | initResolved
  | initRejected
  | beginHandle (idx : Nat)

/-- A registered operation handle: the placeholder registered by
`createEmptyIterable()` (which exposes a `return` method; the helper is
repository code outside `src/`, modelled from the spec's "placeholder
no-result operation"), or a real execution iterator, which may or may not
expose `return`. -/
inductive OpHandle where
  | placeholder
  | real (hasReturn : Bool)
deriving Repr, DecidableEq

/-- Whether `operations[opId].return` exists (`unsubscribe` only calls it
then). -/
def opHasReturn : OpHandle → Bool
  | .placeholder => true
  | .real b => b

/-- The per-connection operation registry `connectionContext.operations`. -/
abbrev Ops := List (Nat × OpHandle)

def getOp (ops : Ops) (opId : Nat) : Option OpHandle :=
  (ops.find? (fun p => p.1 = opId)).map Prod.snd

def removeOp (ops : Ops) (opId : Nat) : Ops := ops.filter (fun p => p.1 ≠ opId)

def setOp (ops : Ops) (opId : Nat) (h : OpHandle) : Ops :=
  removeOp ops opId ++ [(opId, h)]

/-- Number of registry entries under a key (a JavaScript object has at most
one, which `setOp`/`removeOp` preserve). -/
def countKey (ops : Ops) (opId : Nat) : Nat := (ops.filter (fun p => p.1 = opId)).length

/-- Server configuration: which optional hooks are installed and the
keep-alive interval (`0` = absent/disabled, matching the truthiness test
`if (this.keepAlive)`). -/
structure ServerCfg where
  hasOnOperation : Bool := false
  hasOnOperationComplete : Bool := false
  hasOnConnect : Bool := false
  hasOnDisconnect : Bool := false
  keepAlive : Nat := 0

/-- Outcome of the operation hook (`promisedParams`): an object (possibly
carrying `formatResponse`/`formatError` functions), a non-object value, or a
rejection. -/
inductive OnOpResult where
  | obj (formatResponse : Option (Json → Option Json))
        (formatError : Option (JsError → Option JsError))
  | nonObject
  | rejected (e : JsError)

/-- Behaviour of a result sequence: the values it yields, then either normal
exhaustion or a failure. -/
inductive SeqOutcome where
  | success (items : List Json)
  | failure (items : List Json) (err : JsError)

/-- Shape of the executor's return value, as classified by
`server.ts` 431–442: an async iterable, a promise of one, a promise of a
single execution result, a rejected promise, or an invalid (neither) value. -/
inductive ExecutorReturn where
  | asyncIterable (outcome : SeqOutcome)
  | promiseOfIterable (outcome : SeqOutcome)
  | promiseOfResult (r : Json)
  | promiseRejected (e : JsError)
  | invalid

/-- Oracle for one start message: the outcomes of all external collaborators
its pipeline consults. `filePlaceholders` lists the file ids of variables
tagged `___file` in `Object.keys` order (consumed by `processFiles`);
`iteratorHasReturn` tells whether the execution iterator exposes `return`. -/
structure StartOracle where
  onOperationResult : OnOpResult := .obj none none
  parseOutcome : Option JsError := none
  validationErrors : List String := []
  filePlaceholders : List Nat := []
  executorReturn : ExecutorReturn := .promiseOfResult Json.null
  iteratorHasReturn : Bool := true

/-- One parsed inbound message as the `onMessage` switch sees it: the header
id and type, plus — for a start — its oracle, and — for a data message — the
file-chunk fields `(fileId, currentChunk, buffer)`. -/
structure InMsg where
  id : Nat
  ty : Nat
  start : StartOracle := {}
  file : Nat × Nat × List Nat := (0, 0, [])

/-- Settlement state of `connectionContext.initPromise`: it resolves with the
connect hook's value (`false` is recorded, since the ack continuation
branches on `result === false` while deferred handlers still run), or
rejects with an error message. -/
inductive InitStatus where
  | pending
  | resolved (ok : Bool)
  | rejected (msg : String)
deriving Repr, DecidableEq

/-- A continuation attached to `initPromise` while it was pending, in
attachment (arrival) order: either the gated handler of inbound message
number `idx`, or the ack continuation attached by the `connection_init`
handler (remembering that message's id for the error path). -/
inductive Cont where
  | gated (idx : Nat) (m : InMsg)
  | ackCont (initMsgId : Nat)

/-- Outcome of the connect hook's promise (external). -/
inductive InitOutcome where
  | resolvedTrue
  | resolvedFalse
  | rejected (msg : String)

/-- Per-connection state (`ConnectionContext` plus the scheduling state of
`initPromise` and the keep-alive timer). -/
structure ConnSt where
  init : InitStatus := .pending
  connectPending : Bool := false
  deferred : List Cont := []
  ops : Ops := []
  files : List String := []
  timerActive : Bool := false
  socketOpen : Bool := true

/-- `sendMessage` (`server.ts` 557–563) writes the frame only when
`socket.readyState === OPEN`; otherwise the frame is dropped. -/
def sendIf (srvOpen : Bool) (opId : Option Nat) (ty : Nat) (p : OutPayload) : List Ev :=
  if srvOpen then [Ev.send opId ty p] else []

/-- `sendError` (`server.ts` 565–582): defaults the frame type to
`GQL_ERROR` unless overridden (with `GQL_CONNECTION_ERROR`). -/
def sendError (srvOpen : Bool) (opId : Option Nat) (errorPayload : OutPayload)
    (overrideTy : Option Nat) : List Ev :=
  sendIf srvOpen opId (overrideTy.getD MessageType.GQL_ERROR) errorPayload

/-- `unsubscribe` (`server.ts` 232–244): if the opId is registered, call
`return()` when the handle exposes it, delete the registry entry, and invoke
the operation-complete hook when configured; otherwise a no-op. -/
def unsubscribe (cfg : ServerCfg) (ops : Ops) (opId : Nat) : Ops × List Ev :=
  match getOp ops opId with
  | none => (ops, [])
  | some h =>
    (removeOp ops opId,
      (if opHasReturn h then [Ev.opReturn opId] else []) ++
        (if cfg.hasOnOperationComplete then [Ev.opCompleteHook opId] else []))

/-- `getFileId` (`server.ts` 280–282). -/
def getFileId (opId fileId : Nat) : String := toString opId ++ "-" ++ toString fileId

/-- `processFiles` (`server.ts` 284–297): register a fresh file stream under
`(opId, fileId)` for every file placeholder found in the variables. -/
def processFiles (files : List String) (opId : Nat) (placeholders : List Nat) :
    List String :=
  files ++ placeholders.map (getFileId opId)

/-- The error message of `server.ts` 402. -/
def invalidParamsMsg : String :=
  "Invalid params returned from onOperation! return values must be an object!"

/-- The error message of `server.ts` 440. -/
def execUnavailableMsg : String := "GraphQL execute engine is not available"

/-- Message of the TypeError raised at `server.ts` 445 when
`executionIterable` was never assigned (engine-specific text, abstracted). -/
def undefinedThenMsg : String := "executionIterable is undefined"

/-- `params.formatResponse` application (`server.ts` 456–462): formatter
errors are logged and the original value is sent. -/
def applyFormatResponse (fr : Option (Json → Option Json)) (v : Json) : Json :=
  match fr with
  | none => v
  | some f =>
    match f v with
    | some v' => v'
    | none => v

/-- The error payload sent on result-sequence failure
(`server.ts` 469–485): apply `params.formatError` when present (keeping the
original error if the formatter throws), then — when the original error has
no enumerable fields (`Object.keys(e).length === 0`) — replace it by the
plain `{name, message}` object. -/
def errorPayloadSent (fe : Option (JsError → Option JsError)) (e : JsError) : OutPayload :=
  let error : OutPayload :=
    match fe with
    | none => .errVal e
    | some f =>
      match f e with
      | some e' => .errVal e'
      | none => .errVal e
  if e.enumKeys.isEmpty then .nameMessage e.name e.message else error

/-- Result delivery (`server.ts` 450–486): each yielded value is sent as a
data frame (with `formatResponse` applied), then exhaustion sends a complete
frame with a `null` payload and failure sends the error frame of
`errorPayloadSent`. -/
def deliverEvents (srvOpen : Bool) (opId : Nat) (fr : Option (Json → Option Json))
    (fe : Option (JsError → Option JsError)) : SeqOutcome → List Ev
  | .success items =>
    (items.map (fun v =>
      sendIf srvOpen (some opId) MessageType.GQL_DATA (.json (applyFormatResponse fr v)))).flatten
      ++ sendIf srvOpen (some opId) MessageType.GQL_COMPLETE (.json .null)
  | .failure items e =>
    (items.map (fun v =>
      sendIf srvOpen (some opId) MessageType.GQL_DATA (.json (applyFormatResponse fr v)))).flatten
      ++ sendError srvOpen (some opId) (errorPayloadSent fe e) none

/-- JSON shape of the `{ errors: [...] }` result sent for validation errors
(and for a rejected promise carrying an `errors` field). -/
def errsJson (errs : List String) : Json :=
  Json.obj (JsonFields.cons (strBytes "errors")
    (Json.arr (errs.foldr (fun s acc => JsonList.cons (Json.str (strBytes s)) acc) JsonList.nil))
    JsonFields.nil)

/-- The outer `.catch` of the start pipeline (`server.ts` 495–505): a
rejection carrying an `errors` field is sent as a data frame, any other as an
error frame with the error's message; then the operation is unsubscribed. -/
def outerCatch (cfg : ServerCfg) (srvOpen : Bool) (ops : Ops) (opId : Nat) (e : JsError) :
    Ops × List Ev :=
  let evs :=
    match e.errorsField with
    | some errs => sendIf srvOpen (some opId) MessageType.GQL_DATA (.json (errsJson errs))
    | none => sendError srvOpen (some opId) (.errMsg e.message) none
  let u := unsubscribe cfg ops opId
  (u.1, evs ++ u.2)

/-- The params the pipeline runs with: `promisedParams` is the operation
hook's return when one is configured, else the base params (whose
`formatResponse`/`formatError` are `undefined`, `server.ts` 378–398). -/
def effectiveParams (cfg : ServerCfg) (o : StartOracle) : OnOpResult :=
  if cfg.hasOnOperation then o.onOperationResult else .obj none none

/-- The start pipeline from `promisedParams.then` on (`server.ts` 400–505),
linearized in program order of the promise chain: the non-object params
check, document parsing, validation short-circuit, `processFiles`, executor
invocation and classification, real-iterator registration, result delivery,
and the outer catch. Returns the updated registry and file-stream table plus
the events in order. -/
def startPipeline (cfg : ServerCfg) (srvOpen : Bool) (ops : Ops) (files : List String)
    (opId : Nat) (o : StartOracle) : Ops × List String × List Ev :=
  match effectiveParams cfg o with
  | .rejected e =>
    let u := outerCatch cfg srvOpen ops opId e
    (u.1, files, u.2)
  | .nonObject =>
    let thrown : JsError := { name := "Error", message := invalidParamsMsg }
    let u := outerCatch cfg srvOpen ops opId thrown
    (u.1, files, sendError srvOpen (some opId) (.errMsg invalidParamsMsg) none ++ u.2)
  | .obj fr fe =>
    match o.parseOutcome with
    | some e =>
      let u := outerCatch cfg srvOpen ops opId e
      (u.1, files, u.2)
    | none =>
      if 0 < o.validationErrors.length then
        (setOp ops opId (.real true), files,
          Ev.registerOp opId ::
            deliverEvents srvOpen opId fr fe (.success [errsJson o.validationErrors]))
      else
        let files' := processFiles files opId o.filePlaceholders
        match o.executorReturn with
        | .asyncIterable oc | .promiseOfIterable oc =>
          (setOp ops opId (.real o.iteratorHasReturn), files',
            Ev.callExecutor opId :: Ev.registerOp opId ::
              deliverEvents srvOpen opId fr fe oc)
        | .promiseOfResult r =>
          (setOp ops opId (.real o.iteratorHasReturn), files',
            Ev.callExecutor opId :: Ev.registerOp opId ::
              deliverEvents srvOpen opId fr fe (.success [r]))
        | .promiseRejected e =>
          let u := outerCatch cfg srvOpen ops opId e
          (u.1, files', Ev.callExecutor opId :: u.2)
        | .invalid =>
          let thrown : JsError := { name := "TypeError", message := undefinedThenMsg }
          let u := outerCatch cfg srvOpen ops opId thrown
          (u.1, files',
            Ev.callExecutor opId ::
              (sendError srvOpen (some opId) (.errMsg execUnavailableMsg) none ++ u.2))

/-- The whole `GQL_START` continuation (`server.ts` 371–506): if the opId is
already registered, unsubscribe it first; register the placeholder; then run
the pipeline. -/
def startOp (cfg : ServerCfg) (st : ConnSt) (opId : Nat) (o : StartOracle) :
    ConnSt × List Ev :=
  let cancel :=
    match getOp st.ops opId with
    | some _ => unsubscribe cfg st.ops opId
    | none => (st.ops, [])
  let pipe := startPipeline cfg st.socketOpen (setOp cancel.1 opId .placeholder) st.files opId o
  ({ st with ops := pipe.1, files := pipe.2.1 },
    cancel.2 ++ Ev.registerPlaceholder opId :: pipe.2.2)

/-- The `GQL_DATA` continuation (`server.ts` 509–523): push the chunk into
the file stream when both the owning operation and the stream exist,
otherwise drop it silently. -/
def dataOp (st : ConnSt) (opId fileId currentChunk : Nat) (buffer : List Nat) :
    ConnSt × List Ev :=
  if (getOp st.ops opId).isSome && st.files.contains (getFileId opId fileId) then
    (st, [Ev.fileNext (getFileId opId fileId) currentChunk buffer])
  else (st, [])

/-- The gated message types: `GQL_START`, `GQL_DATA` and `GQL_STOP` handlers
run inside `connectionContext.initPromise.then(...)`. -/
def isGatedTy (t : Nat) : Bool :=
  t = MessageType.GQL_START || t = MessageType.GQL_STOP || t = MessageType.GQL_DATA

/-- Run the gated continuation of one message once the init future is
resolved. -/
def performGated (cfg : ServerCfg) (st : ConnSt) (m : InMsg) : ConnSt × List Ev :=
  if m.ty = MessageType.GQL_START then startOp cfg st m.id m.start
  else if m.ty = MessageType.GQL_STOP then
    let u := unsubscribe cfg st.ops m.id
    ({ st with ops := u.1 }, u.2)
  else dataOp st m.id m.file.1 m.file.2.1 m.file.2.2

/-- The ack continuation attached by the `GQL_CONNECTION_INIT` handler
(`server.ts` 327–363): on a resolution other than `false` send
`connection_ack` (and an immediate keep-alive frame when configured); on
resolution with `false` or on rejection send a `connection_error` frame for
the init message's id and schedule closing the socket with code 1011. -/
def ackEvents (cfg : ServerCfg) (st : ConnSt) (initMsgId : Nat) : List Ev :=
  match st.init with
  | .resolved true =>
    sendIf st.socketOpen none MessageType.GQL_CONNECTION_ACK .empty ++
      (if cfg.keepAlive ≠ 0 then
        sendIf st.socketOpen none MessageType.GQL_CONNECTION_KEEP_ALIVE .empty
       else [])
  | .resolved false =>
    sendError st.socketOpen (some initMsgId) (.errMsg "Prohibited connection!")
      (some MessageType.GQL_CONNECTION_ERROR) ++ [Ev.closeSocket (some 1011)]
  | .rejected msg =>
    sendError st.socketOpen (some initMsgId) (.errMsg msg)
      (some MessageType.GQL_CONNECTION_ERROR) ++ [Ev.closeSocket (some 1011)]
  | .pending => []

/-- Run one queued continuation: a gated handler runs only when the future is
resolved (a `.then` continuation on a rejected promise never runs); the ack
continuation observes the settlement either way (it carries a `.catch`). -/
def runCont (cfg : ServerCfg) (st : ConnSt) : Cont → ConnSt × List Ev
  | .gated idx m =>
    match st.init with
    | .resolved _ =>
      let r := performGated cfg st m
      (r.1, Ev.beginHandle idx :: r.2)
    | _ => (st, [])
  | .ackCont initMsgId => (st, ackEvents cfg st initMsgId)

/-- Flush queued continuations in FIFO (attachment) order, as a settled
promise runs its `.then` callbacks. -/
def flushConts (cfg : ServerCfg) (st : ConnSt) : List Cont → ConnSt × List Ev
  | [] => (st, [])
  | c :: cs =>
    let r := runCont cfg st c
    let r' := flushConts cfg r.1 cs
    (r'.1, r.2 ++ r'.2)

/-- The `onMessage` dispatch (`server.ts` 307–535) for one inbound message.
`connection_init` attaches the ack continuation (resolving the future
immediately with `true` when no connect hook is configured);
`connection_terminate` closes the socket directly; the gated types queue
while the future is pending, run immediately once it is resolved, and never
run after a rejection; any other type immediately answers with a `GQL_ERROR`
frame `Invalid message type!` correlated to the frame's id, touching neither
the registries nor the queue. -/
def handleInbound (cfg : ServerCfg) (st : ConnSt) (idx : Nat) (m : InMsg) :
    ConnSt × List Ev :=
  if m.ty = MessageType.GQL_CONNECTION_INIT then
    if cfg.hasOnConnect then
      match st.init with
      | .pending =>
        ({ st with connectPending := true, deferred := st.deferred ++ [Cont.ackCont m.id] }, [])
      | _ => (st, ackEvents cfg st m.id)
    else
      match st.init with
      | .pending =>
        let st₁ : ConnSt := { st with init := .resolved true, deferred := [] }
        let r := flushConts cfg st₁ (st.deferred ++ [Cont.ackCont m.id])
        (r.1, Ev.initResolved :: r.2)
      | _ => (st, ackEvents cfg st m.id)
  else if m.ty = MessageType.GQL_CONNECTION_TERMINATE then
    ({ st with socketOpen := false }, [Ev.closeSocket none])
  else if isGatedTy m.ty then
    match st.init with
    | .pending => ({ st with deferred := st.deferred ++ [Cont.gated idx m] }, [])
    | .resolved _ =>
      let r := performGated cfg st m
      (r.1, Ev.beginHandle idx :: r.2)
    | .rejected _ => (st, [])
  else
    (st, sendError st.socketOpen (some m.id) (.errMsg "Invalid message type!") none)

/-- The settlement status `initPromise` adopts from the connect hook's
outcome. -/
def newInitOf : InitOutcome → InitStatus
  | .resolvedTrue => .resolved true
  | .resolvedFalse => .resolved false
  | .rejected msg => .rejected msg

/-- The trace marker recording the settlement of `initPromise`. -/
def markerOf : InitOutcome → Ev
  | .rejected _ => .initRejected
  | _ => .initResolved

/-- Settlement of the connect hook's promise: adopt the outcome into
`initPromise` and flush the queued continuations in order. -/
def settleInit (cfg : ServerCfg) (st : ConnSt) (o : InitOutcome) : ConnSt × List Ev :=
  if st.connectPending then
    match st.init with
    | .pending =>
      let st₁ : ConnSt :=
        { st with
            init := newInitOf o,
            deferred := [],
            connectPending := false }
      let r := flushConts cfg st₁ st.deferred
      (r.1, markerOf o :: r.2)
    | _ => (st, [])
  else (st, [])

/-- `onClose` teardown (`server.ts` 246–250) over every registered opId, in
registry order. -/
def unsubscribeAll (cfg : ServerCfg) (ops : Ops) : Ops × List Ev :=
  (ops.map Prod.fst).foldl
    (fun acc k =>
      let u := unsubscribe cfg acc.1 k
      (u.1, acc.2 ++ u.2))
    (ops, [])

/-- Scheduler-level events of one connection: an inbound message (tagged with
its arrival number), the settlement of the connect hook's promise, a fire of
the keep-alive interval, and the socket's close event. -/
inductive CEvent where
  | msg (idx : Nat) (m : InMsg)
  | settle (o : InitOutcome)
  | fire
  | close

/-- One scheduler step. The keep-alive fire (`server.ts` 163–169) sends a
frame while the socket is open and clears the interval — lazily — when it
finds the socket no longer open. The close event runs
`connectionClosedHandler` (`server.ts` 172–195): teardown of every operation
and the disconnect hook; the interval is not touched. -/
def stepConn (cfg : ServerCfg) (st : ConnSt) : CEvent → ConnSt × List Ev
  | .msg idx m => handleInbound cfg st idx m
  | .settle o => settleInit cfg st o
  | .fire =>
    if st.timerActive then
      if st.socketOpen then
        (st, [Ev.send none MessageType.GQL_CONNECTION_KEEP_ALIVE .empty])
      else ({ st with timerActive := false }, [])
    else (st, [])
  | .close =>
    let st₁ : ConnSt := { st with socketOpen := false }
    let u := unsubscribeAll cfg st₁.ops
    ({ st₁ with ops := u.1 },
      u.2 ++ (if cfg.hasOnDisconnect then [Ev.disconnectHook] else []))

/-- Run a sequence of scheduler events, concatenating the traces. -/
def runConn (cfg : ServerCfg) (st : ConnSt) : List CEvent → ConnSt × List Ev
  | [] => (st, [])
  | e :: es =>
    let r := stepConn cfg st e
    let r' := runConn cfg r.1 es
    (r'.1, r.2 ++ r'.2)

/-- The state right after `connectionHandler` accepts the socket
(`server.ts` 155–170): empty registries, pending init future, and — when a
keep-alive interval is configured — the interval timer already armed, before
any message is handled. -/
def initialState (cfg : ServerCfg) : ConnSt :=
  { init := .pending, connectPending := false, deferred := [], ops := [], files := [],
    timerActive := cfg.keepAlive != 0, socketOpen := true }

/-! ## Registry lemmas -/

theorem getOp_removeOp_self (ops : Ops) (opId : Nat) :
    getOp (removeOp ops opId) opId = none := by
  unfold getOp removeOp
  rw [Option.map_eq_none', List.find?_eq_none]
  intro p hp
  have := (List.mem_filter.mp hp).2
  simpa using this

theorem getOp_setOp_self (ops : Ops) (opId : Nat) (h : OpHandle) :
    getOp (setOp ops opId h) opId = some h := by
  unfold setOp getOp
  rw [List.find?_append]
  have h1 : (removeOp ops opId).find? (fun p => p.1 = opId) = none := by
    have h2 := getOp_removeOp_self ops opId
    unfold getOp at h2
    exact Option.map_eq_none'.mp h2
  rw [h1]
  simp

theorem countKey_filter_le (ops : Ops) (q : Nat × OpHandle → Bool) (k : Nat) :
    countKey (ops.filter q) k ≤ countKey ops k :=
  List.Sublist.length_le (List.Sublist.filter _ (List.filter_sublist ops))

theorem countKey_removeOp_le (ops : Ops) (i k : Nat) :
    countKey (removeOp ops i) k ≤ countKey ops k :=
  countKey_filter_le ops _ k

theorem countKey_removeOp_self (ops : Ops) (i : Nat) :
    countKey (removeOp ops i) i = 0 := by
  unfold countKey removeOp
  rw [List.length_eq_zero, List.filter_eq_nil_iff]
  intro p hp
  have := (List.mem_filter.mp hp).2
  simpa using this

theorem countKey_singleton (i k : Nat) (h : OpHandle) :
    countKey [(i, h)] k = if i = k then 1 else 0 := by
  unfold countKey
  by_cases hk : i = k
  · simp [List.filter, hk]
  · simp [List.filter, hk]

theorem countKey_setOp_le (ops : Ops) (i : Nat) (h : OpHandle)
    (hone : ∀ k, countKey ops k ≤ 1) : ∀ k, countKey (setOp ops i h) k ≤ 1 := by
  intro k
  have hsplit : countKey (setOp ops i h) k =
      countKey (removeOp ops i) k + countKey [(i, h)] k := by
    unfold countKey setOp
    rw [List.filter_append, List.length_append]
  rw [hsplit, countKey_singleton]
  by_cases hk : i = k
  · rw [if_pos hk, ← hk, countKey_removeOp_self]
  · rw [if_neg hk]
    have := le_trans (countKey_removeOp_le ops i k) (hone k)
    omega

theorem countKey_unsubscribe_le (cfg : ServerCfg) (ops : Ops) (i k : Nat) :
    countKey (unsubscribe cfg ops i).1 k ≤ countKey ops k := by
  unfold unsubscribe
  cases getOp ops i with
  | none => exact le_refl _
  | some h => exact countKey_removeOp_le ops i k

/-! ## Event membership lemmas -/

theorem eq_of_mem_sendIf (srvOpen : Bool) (oi : Option Nat) (ty : Nat) (p : OutPayload)
    (e : Ev) (hm : e ∈ sendIf srvOpen oi ty p) : e = Ev.send oi ty p := by
  unfold sendIf at hm
  split at hm
  · simpa using hm
  · simp at hm

theorem eq_of_mem_unsubscribe (cfg : ServerCfg) (ops : Ops) (i : Nat) (e : Ev)
    (hm : e ∈ (unsubscribe cfg ops i).2) :
    e = Ev.opReturn i ∨ e = Ev.opCompleteHook i := by
  unfold unsubscribe at hm
  cases hg : getOp ops i with
  | none => rw [hg] at hm; simp at hm
  | some h =>
    rw [hg] at hm
    simp only [List.mem_append] at hm
    rcases hm with hm | hm
    · left
      split at hm
      · simpa using hm
      · simp at hm
    · right
      split at hm
      · simpa using hm
      · simp at hm

theorem eq_of_mem_outerCatch (cfg : ServerCfg) (srvOpen : Bool) (ops : Ops) (i : Nat)
    (err : JsError) (e : Ev) (hm : e ∈ (outerCatch cfg srvOpen ops i err).2) :
    (∃ oi ty p, e = Ev.send oi ty p) ∨ e = Ev.opReturn i ∨ e = Ev.opCompleteHook i := by
  unfold outerCatch at hm
  simp only [List.mem_append] at hm
  rcases hm with hm | hm
  · left
    cases herr : err.errorsField with
    | none =>
      rw [herr] at hm
      exact ⟨_, _, _, eq_of_mem_sendIf _ _ _ _ _ hm⟩
    | some errs =>
      rw [herr] at hm
      exact ⟨_, _, _, eq_of_mem_sendIf _ _ _ _ _ hm⟩
  · exact Or.inr (eq_of_mem_unsubscribe cfg ops i e hm)

theorem eq_of_mem_deliverEvents (srvOpen : Bool) (opId : Nat)
    (fr : Option (Json → Option Json)) (fe : Option (JsError → Option JsError))
    (oc : SeqOutcome) (e : Ev) (hm : e ∈ deliverEvents srvOpen opId fr fe oc) :
    ∃ ty p, e = Ev.send (some opId) ty p := by
  cases oc with
  | success items =>
    unfold deliverEvents at hm
    simp only [List.mem_append] at hm
    rcases hm with hm | hm
    · rcases List.mem_flatten.mp hm with ⟨l, hl, hel⟩
      rcases List.mem_map.mp hl with ⟨v, _, rfl⟩
      exact ⟨_, _, eq_of_mem_sendIf _ _ _ _ _ hel⟩
    · exact ⟨_, _, eq_of_mem_sendIf _ _ _ _ _ hm⟩
  | failure items err =>
    unfold deliverEvents at hm
    simp only [List.mem_append] at hm
    rcases hm with hm | hm
    · rcases List.mem_flatten.mp hm with ⟨l, hl, hel⟩
      rcases List.mem_map.mp hl with ⟨v, _, rfl⟩
      exact ⟨_, _, eq_of_mem_sendIf _ _ _ _ _ hel⟩
    · exact ⟨_, _, eq_of_mem_sendIf _ _ _ _ _ hm⟩

/-- Unfolding equation for `startOp` (the definition is a pair of lets). -/
theorem startOp_eq (cfg : ServerCfg) (st : ConnSt) (opId : Nat) (o : StartOracle) :
    startOp cfg st opId o =
      ({ st with
          ops := (startPipeline cfg st.socketOpen
            (setOp (match getOp st.ops opId with
                    | some _ => unsubscribe cfg st.ops opId
                    | none => (st.ops, [])).1 opId .placeholder) st.files opId o).1,
          files := (startPipeline cfg st.socketOpen
            (setOp (match getOp st.ops opId with
                    | some _ => unsubscribe cfg st.ops opId
                    | none => (st.ops, [])).1 opId .placeholder) st.files opId o).2.1 },
        (match getOp st.ops opId with
         | some _ => unsubscribe cfg st.ops opId
         | none => (st.ops, [])).2 ++
          Ev.registerPlaceholder opId ::
            (startPipeline cfg st.socketOpen
              (setOp (match getOp st.ops opId with
                      | some _ => unsubscribe cfg st.ops opId
                      | none => (st.ops, [])).1 opId .placeholder) st.files opId o).2.2) := rfl

theorem startPipeline_ops_shape (cfg : ServerCfg) (srvOpen : Bool) (ops : Ops)
    (files : List String) (opId : Nat) (o : StartOracle) :
    (∃ b, (startPipeline cfg srvOpen ops files opId o).1 = setOp ops opId (.real b)) ∨
      (startPipeline cfg srvOpen ops files opId o).1 = (unsubscribe cfg ops opId).1 := by
  cases heff : effectiveParams cfg o with
  | rejected e => right; simp only [startPipeline, heff]; rfl
  | nonObject => right; simp only [startPipeline, heff]; rfl
  | obj fr fe =>
    cases hp : o.parseOutcome with
    | some e => right; simp only [startPipeline, heff, hp]; rfl
    | none =>
      by_cases hv : 0 < o.validationErrors.length
      · left
        exact ⟨true, by simp only [startPipeline, heff, hp, if_pos hv]⟩
      · cases hex : o.executorReturn with
        | asyncIterable oc =>
          left; exact ⟨o.iteratorHasReturn, by simp only [startPipeline, heff, hp, if_neg hv, hex]⟩
        | promiseOfIterable oc =>
          left; exact ⟨o.iteratorHasReturn, by simp only [startPipeline, heff, hp, if_neg hv, hex]⟩
        | promiseOfResult r =>
          left; exact ⟨o.iteratorHasReturn, by simp only [startPipeline, heff, hp, if_neg hv, hex]⟩
        | promiseRejected e => right; simp only [startPipeline, heff, hp, if_neg hv, hex]; rfl
        | invalid => right; simp only [startPipeline, heff, hp, if_neg hv, hex]; rfl

theorem countKey_startOp_le (cfg : ServerCfg) (st : ConnSt) (opId : Nat) (o : StartOracle)
    (hone : ∀ k, countKey st.ops k ≤ 1) :
    ∀ k, countKey (startOp cfg st opId o).1.ops k ≤ 1 := by
  intro k
  rw [startOp_eq]
  have hbase : ∀ k, countKey
      (match getOp st.ops opId with
       | some _ => unsubscribe cfg st.ops opId
       | none => (st.ops, [])).1 k ≤ 1 := by
    intro k
    cases hg : getOp st.ops opId with
    | none => exact hone k
    | some h =>
      simp only
      exact le_trans (countKey_unsubscribe_le cfg st.ops opId k) (hone k)
  have hplaceholder := countKey_setOp_le _ opId .placeholder hbase
  rcases startPipeline_ops_shape cfg st.socketOpen
      (setOp (match getOp st.ops opId with
              | some _ => unsubscribe cfg st.ops opId
              | none => (st.ops, [])).1 opId .placeholder) st.files opId o with
    ⟨b, hb⟩ | hb
  · rw [hb]
    exact countKey_setOp_le _ opId _ hplaceholder k
  · rw [hb]
    exact le_trans (countKey_unsubscribe_le cfg _ opId k) (hplaceholder k)

/-! ## Claim C2 -/

/-- C2: handling a start for an opId that already has an active operation
whose iterator supports cancellation (with the operation-complete hook
configured) first asks the prior result sequence to stop and fires the
operation-complete hook, and only after that registers the new operation's
placeholder and (in the tail of the trace) its result sequence; and the
registry keeps at most one operation per opId throughout. -/
theorem c2_start_cancels_prior_first (cfg : ServerCfg) (st : ConnSt) (opId : Nat)
    (o : StartOracle) (h : OpHandle)
    (hprior : getOp st.ops opId = some h)
    (hret : opHasReturn h = true)
    (hhook : cfg.hasOnOperationComplete = true)
    (hone : ∀ k, countKey st.ops k ≤ 1) :
    (∃ tail, (startOp cfg st opId o).2 =
      Ev.opReturn opId :: Ev.opCompleteHook opId :: Ev.registerPlaceholder opId :: tail) ∧
    (∀ k, countKey (startOp cfg st opId o).1.ops k ≤ 1) := by
  constructor
  · rw [startOp_eq]
    simp only [hprior]
    unfold unsubscribe
    rw [hprior]
    simp only [hret, if_pos, hhook, if_true]
    exact ⟨_, rfl⟩
  · exact countKey_startOp_le cfg st opId o hone

/-- C2 witness: a start arriving while opId 1 holds a cancellable operation,
with the operation-complete hook configured. -/
theorem c2_start_cancels_prior_first_witness :
    (getOp [(1, OpHandle.real true)] 1 = some (OpHandle.real true) ∧
      opHasReturn (OpHandle.real true) = true ∧
      (({ hasOnOperationComplete := true } : ServerCfg)).hasOnOperationComplete = true ∧
      (∀ k, countKey [(1, OpHandle.real true)] k ≤ 1)) ∧
    ((∃ tail, (startOp { hasOnOperationComplete := true }
        { init := .resolved true, ops := [(1, OpHandle.real true)] } 1 {}).2 =
      Ev.opReturn 1 :: Ev.opCompleteHook 1 :: Ev.registerPlaceholder 1 :: tail) ∧
    (∀ k, countKey (startOp { hasOnOperationComplete := true }
        { init := .resolved true, ops := [(1, OpHandle.real true)] } 1 {}).1.ops k ≤ 1)) := by
  have hone : ∀ k, countKey [(1, OpHandle.real true)] k ≤ 1 := by
    intro k
    rw [show ([(1, OpHandle.real true)] : Ops) = setOp [] 1 (OpHandle.real true) from rfl]
    exact countKey_setOp_le [] 1 (OpHandle.real true) (fun _ => by simp [countKey]) k
  exact ⟨⟨rfl, rfl, rfl, hone⟩,
    c2_start_cancels_prior_first { hasOnOperationComplete := true }
      { init := .resolved true, ops := [(1, OpHandle.real true)] } 1 {} (OpHandle.real true)
      rfl rfl rfl hone⟩

/-! ## Claim C4 -/

theorem flatten_map_singleton {α β : Type _} (f : α → β) (l : List α) :
    (l.map (fun v => [f v])).flatten = l.map f := by
  induction l with
  | nil => rfl
  | cons a t ih => simp [ih]

/-- C4: a start whose document fails the configured validation rules (run
with default response formatting, no prior operation under the opId, socket
open) sends exactly one data frame carrying the error list followed by
exactly one complete frame, and the executor is never invoked. -/
theorem c4_validation_short_circuit (cfg : ServerCfg) (st : ConnSt) (opId : Nat)
    (o : StartOracle) (fe : Option (JsError → Option JsError))
    (hopen : st.socketOpen = true)
    (hprior : getOp st.ops opId = none)
    (heff : effectiveParams cfg o = OnOpResult.obj none fe)
    (hparse : o.parseOutcome = none)
    (hval : o.validationErrors ≠ []) :
    (startOp cfg st opId o).2 =
      [Ev.registerPlaceholder opId, Ev.registerOp opId,
        Ev.send (some opId) MessageType.GQL_DATA
          (OutPayload.json (errsJson o.validationErrors)),
        Ev.send (some opId) MessageType.GQL_COMPLETE (OutPayload.json Json.null)] ∧
    (∀ k, Ev.callExecutor k ∉ (startOp cfg st opId o).2) := by
  have hv : 0 < o.validationErrors.length := List.length_pos.mpr hval
  have htrace : (startOp cfg st opId o).2 =
      [Ev.registerPlaceholder opId, Ev.registerOp opId,
        Ev.send (some opId) MessageType.GQL_DATA
          (OutPayload.json (errsJson o.validationErrors)),
        Ev.send (some opId) MessageType.GQL_COMPLETE (OutPayload.json Json.null)] := by
    rw [startOp_eq]
    simp only [hprior]
    simp only [startPipeline, heff, hparse, if_pos hv]
    simp [deliverEvents, sendIf, hopen, applyFormatResponse]
  refine ⟨htrace, ?_⟩
  intro k
  rw [htrace]
  simp

/-- C4 witness: a start with one validation error, default params, no prior
operation, evaluated on a fresh acknowledged connection. -/
theorem c4_validation_short_circuit_witness :
    (({ init := .resolved true } : ConnSt).socketOpen = true ∧
      getOp ({ init := .resolved true } : ConnSt).ops 1 = none ∧
      effectiveParams {} { validationErrors := ["bad field"] } = OnOpResult.obj none none ∧
      ({ validationErrors := ["bad field"] } : StartOracle).parseOutcome = none ∧
      ({ validationErrors := ["bad field"] } : StartOracle).validationErrors ≠ []) ∧
    ((startOp {} { init := .resolved true } 1 { validationErrors := ["bad field"] }).2 =
      [Ev.registerPlaceholder 1, Ev.registerOp 1,
        Ev.send (some 1) MessageType.GQL_DATA (OutPayload.json (errsJson ["bad field"])),
        Ev.send (some 1) MessageType.GQL_COMPLETE (OutPayload.json Json.null)] ∧
    (∀ k, Ev.callExecutor k ∉
      (startOp {} { init := .resolved true } 1 { validationErrors := ["bad field"] }).2)) :=
  ⟨⟨rfl, rfl, rfl, rfl, by simp⟩,
    c4_validation_short_circuit {} { init := .resolved true } 1
      { validationErrors := ["bad field"] } none rfl rfl rfl rfl (by simp)⟩

/-! ## Claim C5 -/

/-- C5 (amended): when a registered operation's result sequence fails, the
server sends the data frames for the values yielded so far and then one
error frame whose payload applies the optional error formatter and — when
the failing error has no enumerable fields — is normalized to `{name,
message}`; the operation then REMAINS in the registry and the
operation-complete hook does not fire (no unsubscribe happens on this
path). -/
theorem c5_sequence_failure_error_frame (cfg : ServerCfg) (st : ConnSt) (opId : Nat)
    (o : StartOracle) (fe : Option (JsError → Option JsError)) (items : List Json)
    (e : JsError)
    (hopen : st.socketOpen = true)
    (hprior : getOp st.ops opId = none)
    (heff : effectiveParams cfg o = OnOpResult.obj none fe)
    (hparse : o.parseOutcome = none)
    (hval : o.validationErrors = [])
    (hexec : o.executorReturn = ExecutorReturn.asyncIterable (SeqOutcome.failure items e)) :
    (startOp cfg st opId o).2 =
      Ev.registerPlaceholder opId :: Ev.callExecutor opId :: Ev.registerOp opId ::
        (items.map (fun v => Ev.send (some opId) MessageType.GQL_DATA (OutPayload.json v)) ++
          [Ev.send (some opId) MessageType.GQL_ERROR (errorPayloadSent fe e)]) ∧
    getOp (startOp cfg st opId o).1.ops opId = some (OpHandle.real o.iteratorHasReturn) ∧
    (∀ k, Ev.opCompleteHook k ∉ (startOp cfg st opId o).2) ∧
    (e.enumKeys = [] → errorPayloadSent fe e = OutPayload.nameMessage e.name e.message) := by
  have hv : ¬ 0 < o.validationErrors.length := by rw [hval]; simp
  have htrace : (startOp cfg st opId o).2 =
      Ev.registerPlaceholder opId :: Ev.callExecutor opId :: Ev.registerOp opId ::
        (items.map (fun v => Ev.send (some opId) MessageType.GQL_DATA (OutPayload.json v)) ++
          [Ev.send (some opId) MessageType.GQL_ERROR (errorPayloadSent fe e)]) := by
    rw [startOp_eq]
    simp only [hprior]
    simp only [startPipeline, heff, hparse, if_neg hv, hexec]
    simp only [deliverEvents, hopen, sendError, sendIf, Option.getD_none, if_true,
      List.nil_append, applyFormatResponse]
    rw [flatten_map_singleton]
  refine ⟨htrace, ?_, ?_, ?_⟩
  · rw [startOp_eq]
    simp only [hprior]
    simp only [startPipeline, heff, hparse, if_neg hv, hexec]
    exact getOp_setOp_self _ opId _
  · intro k
    rw [htrace]
    intro hm
    rcases List.mem_cons.mp hm with h | hm
    · simp at h
    rcases List.mem_cons.mp hm with h | hm
    · simp at h
    rcases List.mem_cons.mp hm with h | hm
    · simp at h
    rcases List.mem_append.mp hm with h | h
    · rcases List.mem_map.mp h with ⟨v, _, h'⟩
      simp at h'
    · simp at h
  · intro hk
    simp [errorPayloadSent, hk]

/-- C5 counterexample configuration: operation-complete hook installed,
acknowledged connection, an executor returning a sequence that fails
immediately with a bare `Error`. -/
def c5Cfg : ServerCfg := { hasOnOperationComplete := true }

def c5St : ConnSt := { init := .resolved true }

def c5Oracle : StartOracle :=
  { executorReturn := .asyncIterable (.failure [] { name := "Error", message := "boom" }) }

/-- Whether an event is an operation-complete hook invocation. -/
def Ev.isCompleteHook : Ev → Bool
  | .opCompleteHook _ => true
  | _ => false

/-- C5 counterexample: with the operation-complete hook configured and the
result sequence failing, the server sends the (normalized) error frame but
does NOT unsubscribe: the operation is still registered afterwards and no
operation-complete hook event occurs anywhere in the trace — refuting the
claim's "and then unsubscribes the operation (removes it from the registry
and fires the operation-complete hook)". -/
theorem c5_no_unsubscribe_counterexample :
    (startOp c5Cfg c5St 1 c5Oracle).2 =
      [Ev.registerPlaceholder 1, Ev.callExecutor 1, Ev.registerOp 1,
        Ev.send (some 1) MessageType.GQL_ERROR (OutPayload.nameMessage "Error" "boom")] ∧
    getOp (startOp c5Cfg c5St 1 c5Oracle).1.ops 1 = some (OpHandle.real true) ∧
    (startOp c5Cfg c5St 1 c5Oracle).2.all (fun e => !e.isCompleteHook) = true :=
  ⟨rfl, rfl, rfl⟩

/-- C5 witness: the amended theorem evaluated at a failing sequence that
yielded one value first. -/
theorem c5_sequence_failure_error_frame_witness :
    (({ init := .resolved true } : ConnSt).socketOpen = true ∧
      getOp ({ init := .resolved true } : ConnSt).ops 2 = none ∧
      effectiveParams {}
        { executorReturn := .asyncIterable (.failure [Json.null]
            { name := "E", message := "m", enumKeys := ["k"] }) } = OnOpResult.obj none none ∧
      ({ executorReturn := .asyncIterable (.failure [Json.null]
            { name := "E", message := "m", enumKeys := ["k"] }) } : StartOracle).parseOutcome
          = none ∧
      ({ executorReturn := .asyncIterable (.failure [Json.null]
            { name := "E", message := "m", enumKeys := ["k"] }) } : StartOracle).validationErrors
          = [] ∧
      ({ executorReturn := .asyncIterable (.failure [Json.null]
            { name := "E", message := "m", enumKeys := ["k"] }) } : StartOracle).executorReturn
          = ExecutorReturn.asyncIterable (SeqOutcome.failure [Json.null]
              { name := "E", message := "m", enumKeys := ["k"] })) ∧
    ((startOp {} { init := .resolved true } 2
        { executorReturn := .asyncIterable (.failure [Json.null]
            { name := "E", message := "m", enumKeys := ["k"] }) }).2 =
      Ev.registerPlaceholder 2 :: Ev.callExecutor 2 :: Ev.registerOp 2 ::
        ([Json.null].map (fun v => Ev.send (some 2) MessageType.GQL_DATA (OutPayload.json v)) ++
          [Ev.send (some 2) MessageType.GQL_ERROR
            (errorPayloadSent none { name := "E", message := "m", enumKeys := ["k"] })]) ∧
      getOp (startOp {} { init := .resolved true } 2
        { executorReturn := .asyncIterable (.failure [Json.null]
            { name := "E", message := "m", enumKeys := ["k"] }) }).1.ops 2 =
          some (OpHandle.real true) ∧
      (∀ k, Ev.opCompleteHook k ∉ (startOp {} { init := .resolved true } 2
        { executorReturn := .asyncIterable (.failure [Json.null]
            { name := "E", message := "m", enumKeys := ["k"] }) }).2) ∧
      (({ name := "E", message := "m", enumKeys := ["k"] } : JsError).enumKeys = [] →
        errorPayloadSent none { name := "E", message := "m", enumKeys := ["k"] } =
          OutPayload.nameMessage "E" "m")) :=
  ⟨⟨rfl, rfl, rfl, rfl, rfl, rfl⟩,
    c5_sequence_failure_error_frame {} { init := .resolved true } 2
      { executorReturn := .asyncIterable (.failure [Json.null]
          { name := "E", message := "m", enumKeys := ["k"] }) } none [Json.null]
      { name := "E", message := "m", enumKeys := ["k"] } rfl rfl rfl rfl rfl rfl⟩

/-! ## Claim C7 -/

theorem getOp_unsubscribe_self (cfg : ServerCfg) (ops : Ops) (i : Nat) :
    getOp (unsubscribe cfg ops i).1 i = none := by
  unfold unsubscribe
  cases hg : getOp ops i with
  | none => simpa using hg
  | some h =>
    simp only
    exact getOp_removeOp_self ops i

/-- C7: when the configured operation hook resolves to a non-object value,
the server sends a `GQL_ERROR` frame with the invalid-params message for
that opId, the operation ends up not registered, and the executor is never
invoked. -/
theorem c7_non_object_params (cfg : ServerCfg) (st : ConnSt) (opId : Nat) (o : StartOracle)
    (hopen : st.socketOpen = true)
    (hop : cfg.hasOnOperation = true)
    (hres : o.onOperationResult = OnOpResult.nonObject) :
    getOp (startOp cfg st opId o).1.ops opId = none ∧
    Ev.send (some opId) MessageType.GQL_ERROR (OutPayload.errMsg invalidParamsMsg) ∈
      (startOp cfg st opId o).2 ∧
    (∀ k, Ev.callExecutor k ∉ (startOp cfg st opId o).2) := by
  have heff : effectiveParams cfg o = OnOpResult.nonObject := by
    simp [effectiveParams, hop, hres]
  refine ⟨?_, ?_, ?_⟩
  · rw [startOp_eq]
    simp only [startPipeline, heff, outerCatch]
    exact getOp_unsubscribe_self cfg _ opId
  · rw [startOp_eq]
    refine List.mem_append.mpr (Or.inr (List.mem_cons.mpr (Or.inr ?_)))
    simp only [startPipeline, heff]
    refine List.mem_append.mpr (Or.inl ?_)
    simp [sendError, sendIf, hopen]
  · intro k
    rw [startOp_eq]
    intro hmem
    rcases List.mem_append.mp hmem with hm | hm
    · cases hg : getOp st.ops opId with
      | none => rw [hg] at hm; simp at hm
      | some h =>
        rw [hg] at hm
        rcases eq_of_mem_unsubscribe cfg st.ops opId _ hm with h' | h' <;> simp at h'
    · rcases List.mem_cons.mp hm with h' | hm2
      · simp at h'
      · simp only [startPipeline, heff] at hm2
        rcases List.mem_append.mp hm2 with h' | h'
        · have := eq_of_mem_sendIf _ _ _ _ _ h'
          simp at this
        · rcases eq_of_mem_outerCatch _ _ _ _ _ _ h' with ⟨oi, ty, p, h''⟩ | h'' | h'' <;>
            simp at h''

/-- C7 witness: the operation hook configured and returning a non-object,
evaluated on a fresh acknowledged connection. -/
theorem c7_non_object_params_witness :
    (({ init := .resolved true } : ConnSt).socketOpen = true ∧
      ({ hasOnOperation := true } : ServerCfg).hasOnOperation = true ∧
      ({ onOperationResult := .nonObject } : StartOracle).onOperationResult =
        OnOpResult.nonObject) ∧
    (getOp (startOp { hasOnOperation := true } { init := .resolved true } 4
        { onOperationResult := .nonObject }).1.ops 4 = none ∧
      Ev.send (some 4) MessageType.GQL_ERROR (OutPayload.errMsg invalidParamsMsg) ∈
        (startOp { hasOnOperation := true } { init := .resolved true } 4
          { onOperationResult := .nonObject }).2 ∧
      (∀ k, Ev.callExecutor k ∉ (startOp { hasOnOperation := true }
        { init := .resolved true } 4 { onOperationResult := .nonObject }).2)) :=
  ⟨⟨rfl, rfl, rfl⟩,
    c7_non_object_params { hasOnOperation := true } { init := .resolved true } 4
      { onOperationResult := .nonObject } rfl rfl rfl⟩

/-! ## Claim C9 -/

/-- C9: an inbound frame whose type is none the dispatch switch recognizes
(init, terminate, start, data, stop) is answered immediately — without
waiting on the initialization future — with a single `GQL_ERROR` frame
carrying `Invalid message type!` and correlated to the frame's id, and the
connection state (operation registry, file-stream registry, deferral queue,
everything) is left unchanged. -/
theorem c9_invalid_message_type (cfg : ServerCfg) (st : ConnSt) (idx : Nat) (m : InMsg)
    (hopen : st.socketOpen = true)
    (h1 : m.ty ≠ MessageType.GQL_CONNECTION_INIT)
    (h2 : m.ty ≠ MessageType.GQL_CONNECTION_TERMINATE)
    (h3 : m.ty ≠ MessageType.GQL_START)
    (h4 : m.ty ≠ MessageType.GQL_DATA)
    (h5 : m.ty ≠ MessageType.GQL_STOP) :
    handleInbound cfg st idx m =
      (st, [Ev.send (some m.id) MessageType.GQL_ERROR
        (OutPayload.errMsg "Invalid message type!")]) := by
  have hg : isGatedTy m.ty = false := by
    simp [isGatedTy, h3, h4, h5]
  unfold handleInbound
  rw [if_neg h1, if_neg h2]
  rw [hg]
  simp [sendError, sendIf, hopen]

/-- C9 witness: a frame with the unassigned type code 99 on a fresh
connection. -/
theorem c9_invalid_message_type_witness :
    ((initialState {}).socketOpen = true ∧
      (99 : Nat) ≠ MessageType.GQL_CONNECTION_INIT ∧
      (99 : Nat) ≠ MessageType.GQL_CONNECTION_TERMINATE ∧
      (99 : Nat) ≠ MessageType.GQL_START ∧
      (99 : Nat) ≠ MessageType.GQL_DATA ∧
      (99 : Nat) ≠ MessageType.GQL_STOP) ∧
    handleInbound {} (initialState {}) 0 { id := 7, ty := 99 } =
      (initialState {}, [Ev.send (some 7) MessageType.GQL_ERROR
        (OutPayload.errMsg "Invalid message type!")]) :=
  ⟨⟨rfl, by decide, by decide, by decide, by decide, by decide⟩,
    c9_invalid_message_type {} (initialState {}) 0 { id := 7, ty := 99 }
      rfl (by decide) (by decide) (by decide) (by decide) (by decide)⟩

/-! ## Claim C10 -/

/-- C10: with a positive keep-alive interval configured the timer is armed
already at socket accept, while the initialization future is still pending —
so an elapsed interval (a fire of the timer) emits a `connection_keep_alive`
frame before any `connection_init` was handled, hence before any
`connection_ack`. -/
theorem c10_keep_alive_before_init (cfg : ServerCfg) (hka : 0 < cfg.keepAlive) :
    (initialState cfg).timerActive = true ∧
    (initialState cfg).init = InitStatus.pending ∧
    (runConn cfg (initialState cfg) [CEvent.fire]).2 =
      [Ev.send none MessageType.GQL_CONNECTION_KEEP_ALIVE OutPayload.empty] := by
  have ht : (initialState cfg).timerActive = true := by
    simp only [initialState, bne_iff_ne, ne_eq]
    omega
  have ho : (initialState cfg).socketOpen = true := rfl
  refine ⟨ht, rfl, ?_⟩
  simp [runConn, stepConn, ht, ho]

/-- C10 witness: keep-alive interval 5, one timer fire before any message. -/
theorem c10_keep_alive_before_init_witness :
    (0 < ({ keepAlive := 5 } : ServerCfg).keepAlive) ∧
    ((initialState { keepAlive := 5 }).timerActive = true ∧
      (initialState { keepAlive := 5 }).init = InitStatus.pending ∧
      (runConn { keepAlive := 5 } (initialState { keepAlive := 5 }) [CEvent.fire]).2 =
        [Ev.send none MessageType.GQL_CONNECTION_KEEP_ALIVE OutPayload.empty]) :=
  ⟨by norm_num, c10_keep_alive_before_init { keepAlive := 5 } (by norm_num)⟩

/-! ## Claim C8 -/

/-- C8 (the code evaluated at the failing input): with keep-alive interval 5
configured, after the socket's close event the connection teardown has NOT
cancelled the keep-alive timer — it is still armed — and only the next fire,
finding the socket no longer open, clears it lazily (emitting no frame; in
particular no keep-alive frame is sent after the close). -/
theorem c8_timer_not_cancelled_on_close :
    (runConn { keepAlive := 5 } (initialState { keepAlive := 5 }) [CEvent.close]).1.timerActive
      = true ∧
    (stepConn { keepAlive := 5 }
      (runConn { keepAlive := 5 } (initialState { keepAlive := 5 }) [CEvent.close]).1
      CEvent.fire).2 = [] ∧
    (stepConn { keepAlive := 5 }
      (runConn { keepAlive := 5 } (initialState { keepAlive := 5 }) [CEvent.close]).1
      CEvent.fire).1.timerActive = false :=
  ⟨rfl, rfl, rfl⟩

/-! ## Claim C3: deferral machinery -/

/-- Whether an event is a `beginHandle` marker. -/
def Ev.isBegin : Ev → Bool
  | .beginHandle _ => true
  | _ => false

/-- The indices of the `beginHandle` markers in a trace, in trace order:
which inbound messages' gated continuations ran, and in which order. -/
def begins (evs : List Ev) : List Nat :=
  evs.filterMap (fun e => match e with | .beginHandle i => some i | _ => none)

theorem begins_append (l l' : List Ev) : begins (l ++ l') = begins l ++ begins l' :=
  List.filterMap_append l l' _

theorem begins_eq_nil_of_forall (l : List Ev) (h : ∀ e ∈ l, e.isBegin = false) :
    begins l = [] := by
  induction l with
  | nil => rfl
  | cons a t ih =>
    have ha := h a (List.mem_cons_self a t)
    have ht := ih (fun e he => h e (List.mem_cons_of_mem a he))
    cases a <;> simp_all [begins, Ev.isBegin, List.filterMap_cons]

theorem isBegin_false_of_mem_sendIf (srvOpen : Bool) (oi : Option Nat) (ty : Nat)
    (p : OutPayload) (e : Ev) (hm : e ∈ sendIf srvOpen oi ty p) : e.isBegin = false := by
  rw [eq_of_mem_sendIf _ _ _ _ _ hm]; rfl

theorem isBegin_false_of_mem_unsubscribe (cfg : ServerCfg) (ops : Ops) (i : Nat) (e : Ev)
    (hm : e ∈ (unsubscribe cfg ops i).2) : e.isBegin = false := by
  rcases eq_of_mem_unsubscribe cfg ops i e hm with rfl | rfl <;> rfl

theorem isBegin_false_of_mem_outerCatch (cfg : ServerCfg) (srvOpen : Bool) (ops : Ops)
    (i : Nat) (err : JsError) (e : Ev) (hm : e ∈ (outerCatch cfg srvOpen ops i err).2) :
    e.isBegin = false := by
  rcases eq_of_mem_outerCatch cfg srvOpen ops i err e hm with ⟨oi, ty, p, rfl⟩ | rfl | rfl <;> rfl

theorem isBegin_false_of_mem_deliverEvents (srvOpen : Bool) (i : Nat)
    (fr : Option (Json → Option Json)) (fe : Option (JsError → Option JsError))
    (oc : SeqOutcome) (e : Ev) (hm : e ∈ deliverEvents srvOpen i fr fe oc) :
    e.isBegin = false := by
  rcases eq_of_mem_deliverEvents srvOpen i fr fe oc e hm with ⟨ty, p, rfl⟩; rfl

theorem isBegin_false_of_mem_startPipeline (cfg : ServerCfg) (srvOpen : Bool) (ops : Ops)
    (files : List String) (opId : Nat) (o : StartOracle) (e : Ev)
    (hm : e ∈ (startPipeline cfg srvOpen ops files opId o).2.2) : e.isBegin = false := by
  cases heff : effectiveParams cfg o with
  | rejected err =>
    simp only [startPipeline, heff] at hm
    exact isBegin_false_of_mem_outerCatch _ _ _ _ _ _ hm
  | nonObject =>
    simp only [startPipeline, heff] at hm
    rcases List.mem_append.mp hm with h | h
    · exact isBegin_false_of_mem_sendIf _ _ _ _ _ h
    · exact isBegin_false_of_mem_outerCatch _ _ _ _ _ _ h
  | obj fr fe =>
    cases hp : o.parseOutcome with
    | some err =>
      simp only [startPipeline, heff, hp] at hm
      exact isBegin_false_of_mem_outerCatch _ _ _ _ _ _ hm
    | none =>
      by_cases hv : 0 < o.validationErrors.length
      · simp only [startPipeline, heff, hp, if_pos hv] at hm
        rcases List.mem_cons.mp hm with rfl | h
        · rfl
        · exact isBegin_false_of_mem_deliverEvents _ _ _ _ _ _ h
      · cases hex : o.executorReturn with
        | asyncIterable oc =>
          simp only [startPipeline, heff, hp, if_neg hv, hex] at hm
          rcases List.mem_cons.mp hm with rfl | h
          · rfl
          rcases List.mem_cons.mp h with rfl | h'
          · rfl
          · exact isBegin_false_of_mem_deliverEvents _ _ _ _ _ _ h'
        | promiseOfIterable oc =>
          simp only [startPipeline, heff, hp, if_neg hv, hex] at hm
          rcases List.mem_cons.mp hm with rfl | h
          · rfl
          rcases List.mem_cons.mp h with rfl | h'
          · rfl
          · exact isBegin_false_of_mem_deliverEvents _ _ _ _ _ _ h'
        | promiseOfResult r =>
          simp only [startPipeline, heff, hp, if_neg hv, hex] at hm
          rcases List.mem_cons.mp hm with rfl | h
          · rfl
          rcases List.mem_cons.mp h with rfl | h'
          · rfl
          · exact isBegin_false_of_mem_deliverEvents _ _ _ _ _ _ h'
        | promiseRejected err =>
          simp only [startPipeline, heff, hp, if_neg hv, hex] at hm
          rcases List.mem_cons.mp hm with rfl | h
          · rfl
          · exact isBegin_false_of_mem_outerCatch _ _ _ _ _ _ h
        | invalid =>
          simp only [startPipeline, heff, hp, if_neg hv, hex] at hm
          rcases List.mem_cons.mp hm with rfl | h
          · rfl
          rcases List.mem_append.mp h with h' | h'
          · exact isBegin_false_of_mem_sendIf _ _ _ _ _ h'
          · exact isBegin_false_of_mem_outerCatch _ _ _ _ _ _ h'

theorem isBegin_false_of_mem_startOp (cfg : ServerCfg) (st : ConnSt) (opId : Nat)
    (o : StartOracle) (e : Ev) (hm : e ∈ (startOp cfg st opId o).2) : e.isBegin = false := by
  rw [startOp_eq] at hm
  rcases List.mem_append.mp hm with h | h
  · cases hg : getOp st.ops opId with
    | none => rw [hg] at h; simp at h
    | some hd =>
      rw [hg] at h
      exact isBegin_false_of_mem_unsubscribe _ _ _ _ h
  · rcases List.mem_cons.mp h with rfl | h'
    · rfl
    · exact isBegin_false_of_mem_startPipeline _ _ _ _ _ _ _ h'

theorem begins_performGated (cfg : ServerCfg) (st : ConnSt) (m : InMsg) :
    begins (performGated cfg st m).2 = [] := by
  apply begins_eq_nil_of_forall
  intro e he
  unfold performGated at he
  split at he
  · exact isBegin_false_of_mem_startOp _ _ _ _ _ he
  · split at he
    · exact isBegin_false_of_mem_unsubscribe _ _ _ _ he
    · unfold dataOp at he
      split at he
      · rw [List.eq_of_mem_singleton he]; rfl
      · simp at he

theorem performGated_init (cfg : ServerCfg) (st : ConnSt) (m : InMsg) :
    (performGated cfg st m).1.init = st.init := by
  unfold performGated
  split
  · rfl
  · split
    · rfl
    · unfold dataOp
      split <;> rfl

theorem performGated_socketOpen (cfg : ServerCfg) (st : ConnSt) (m : InMsg) :
    (performGated cfg st m).1.socketOpen = st.socketOpen := by
  unfold performGated
  split
  · rfl
  · split
    · rfl
    · unfold dataOp
      split <;> rfl

theorem isBegin_false_of_mem_ackEvents (cfg : ServerCfg) (st : ConnSt) (i : Nat) (e : Ev)
    (hm : e ∈ ackEvents cfg st i) : e.isBegin = false := by
  unfold ackEvents at hm
  cases hinit : st.init with
  | pending => rw [hinit] at hm; simp at hm
  | rejected msg =>
    rw [hinit] at hm
    rcases List.mem_append.mp hm with h | h
    · exact isBegin_false_of_mem_sendIf _ _ _ _ _ h
    · rw [List.eq_of_mem_singleton h]; rfl
  | resolved b =>
    rw [hinit] at hm
    cases b with
    | true =>
      rcases List.mem_append.mp hm with h | h
      · exact isBegin_false_of_mem_sendIf _ _ _ _ _ h
      · split at h
        · exact isBegin_false_of_mem_sendIf _ _ _ _ _ h
        · simp at h
    | false =>
      rcases List.mem_append.mp hm with h | h
      · exact isBegin_false_of_mem_sendIf _ _ _ _ _ h
      · rw [List.eq_of_mem_singleton h]; rfl

/-- The gated continuations' indices present in a queue, in queue order. -/
def gatedIdxs (q : List Cont) : List Nat :=
  q.filterMap (fun c => match c with | .gated i _ => some i | _ => none)

/-- Flushing a queue over a resolved future runs exactly the gated
continuations, marking each with its index in queue order, and leaves the
future resolved. -/
theorem flushConts_begins (cfg : ServerCfg) (st : ConnSt) (q : List Cont) (b : Bool)
    (hinit : st.init = .resolved b) :
    begins (flushConts cfg st q).2 = gatedIdxs q ∧
      (flushConts cfg st q).1.init = .resolved b := by
  induction q generalizing st with
  | nil => exact ⟨rfl, hinit⟩
  | cons c cs ih =>
    cases c with
    | gated i m =>
      have hrun : runCont cfg st (.gated i m) =
          ((performGated cfg st m).1, Ev.beginHandle i :: (performGated cfg st m).2) := by
        simp only [runCont, hinit]
      have hinit' : (performGated cfg st m).1.init = .resolved b := by
        rw [performGated_init, hinit]
      have hih := ih (performGated cfg st m).1 hinit'
      constructor
      · show begins ((runCont cfg st (.gated i m)).2 ++
          (flushConts cfg (runCont cfg st (.gated i m)).1 cs).2) = _
        rw [hrun]
        rw [begins_append]
        have hb : begins (Ev.beginHandle i :: (performGated cfg st m).2) =
            i :: begins (performGated cfg st m).2 := by
          simp [begins, List.filterMap_cons]
        rw [hb, begins_performGated, hih.1]
        simp [gatedIdxs, List.filterMap_cons]
      · show (flushConts cfg (runCont cfg st (.gated i m)).1 cs).1.init = _
        rw [hrun]
        exact hih.2
    | ackCont j =>
      have hrun : runCont cfg st (.ackCont j) = (st, ackEvents cfg st j) := rfl
      have hih := ih st hinit
      constructor
      · show begins ((runCont cfg st (.ackCont j)).2 ++
          (flushConts cfg (runCont cfg st (.ackCont j)).1 cs).2) = _
        rw [hrun, begins_append,
          begins_eq_nil_of_forall _ (fun e he => isBegin_false_of_mem_ackEvents cfg st j e he),
          hih.1]
        simp [gatedIdxs, List.filterMap_cons]
      · show (flushConts cfg (runCont cfg st (.ackCont j)).1 cs).1.init = _
        rw [hrun]
        exact hih.2

/-- Flushing a queue over a rejected future runs no gated continuation at
all: the only events are the ack continuation's error path. -/
theorem flushConts_rejected (cfg : ServerCfg) (st : ConnSt) (q : List Cont) (msg : String)
    (hinit : st.init = .rejected msg) :
    begins (flushConts cfg st q).2 = [] ∧ (flushConts cfg st q).1 = st := by
  induction q generalizing st with
  | nil => exact ⟨rfl, rfl⟩
  | cons c cs ih =>
    cases c with
    | gated i m =>
      have hrun : runCont cfg st (.gated i m) = (st, []) := by
        simp only [runCont, hinit]
      have hih := ih st hinit
      constructor
      · show begins ((runCont cfg st (.gated i m)).2 ++
          (flushConts cfg (runCont cfg st (.gated i m)).1 cs).2) = _
        rw [hrun]
        simpa using hih.1
      · show (flushConts cfg (runCont cfg st (.gated i m)).1 cs).1 = _
        rw [hrun]
        exact hih.2
    | ackCont j =>
      have hrun : runCont cfg st (.ackCont j) = (st, ackEvents cfg st j) := rfl
      have hih := ih st hinit
      constructor
      · show begins ((runCont cfg st (.ackCont j)).2 ++
          (flushConts cfg (runCont cfg st (.ackCont j)).1 cs).2) = _
        rw [hrun, begins_append,
          begins_eq_nil_of_forall _ (fun e he => isBegin_false_of_mem_ackEvents cfg st j e he),
          hih.1]
        rfl
      · show (flushConts cfg (runCont cfg st (.ackCont j)).1 cs).1 = _
        rw [hrun]
        exact hih.2

theorem gatedIdxs_append (q q' : List Cont) :
    gatedIdxs (q ++ q') = gatedIdxs q ++ gatedIdxs q' :=
  List.filterMap_append q q' _

theorem gatedIdxs_map_gated (ms : List (Nat × InMsg)) :
    gatedIdxs (ms.map (fun p => Cont.gated p.1 p.2)) = ms.map Prod.fst := by
  induction ms with
  | nil => rfl
  | cons p t ih => simp [gatedIdxs, List.filterMap_cons] at ih ⊢; exact ih

theorem gatedIdxs_ackCont_cons (j : Nat) (q : List Cont) :
    gatedIdxs (Cont.ackCont j :: q) = gatedIdxs q := by
  simp [gatedIdxs, List.filterMap_cons]

theorem gated_ty_ne (t : Nat) (hg : isGatedTy t = true) :
    t ≠ MessageType.GQL_CONNECTION_INIT ∧ t ≠ MessageType.GQL_CONNECTION_TERMINATE := by
  unfold isGatedTy at hg
  simp only [Bool.or_eq_true, decide_eq_true_eq] at hg
  rcases hg with (h | h) | h <;> subst h <;> exact ⟨by decide, by decide⟩

theorem handleInbound_gated_pending (cfg : ServerCfg) (st : ConnSt) (idx : Nat) (m : InMsg)
    (hg : isGatedTy m.ty = true) (hp : st.init = .pending) :
    handleInbound cfg st idx m =
      ({ st with deferred := st.deferred ++ [Cont.gated idx m] }, []) := by
  obtain ⟨h1, h2⟩ := gated_ty_ne m.ty hg
  unfold handleInbound
  rw [if_neg h1, if_neg h2, if_pos hg]
  simp only [hp]

theorem handleInbound_init_pending (cfg : ServerCfg) (st : ConnSt) (idx : Nat) (m : InMsg)
    (hoc : cfg.hasOnConnect = true) (hty : m.ty = MessageType.GQL_CONNECTION_INIT)
    (hp : st.init = .pending) :
    handleInbound cfg st idx m =
      ({ st with
          connectPending := true,
          deferred := st.deferred ++ [Cont.ackCont m.id] }, []) := by
  unfold handleInbound
  rw [if_pos hty, if_pos hoc]
  simp only [hp]

theorem runConn_append (cfg : ServerCfg) (st : ConnSt) (es1 es2 : List CEvent) :
    runConn cfg st (es1 ++ es2) =
      ((runConn cfg (runConn cfg st es1).1 es2).1,
        (runConn cfg st es1).2 ++ (runConn cfg (runConn cfg st es1).1 es2).2) := by
  induction es1 generalizing st with
  | nil => simp [runConn]
  | cons e t ih =>
    show runConn cfg st (e :: (t ++ es2)) = _
    simp only [runConn]
    rw [ih]
    simp [List.append_assoc]

theorem runConn_snoc (cfg : ServerCfg) (st : ConnSt) (es : List CEvent) (e : CEvent) :
    runConn cfg st (es ++ [e]) =
      ((stepConn cfg (runConn cfg st es).1 e).1,
        (runConn cfg st es).2 ++ (stepConn cfg (runConn cfg st es).1 e).2) := by
  rw [runConn_append]
  simp [runConn]

/-- The inbound-message events of a tagged message list. -/
def msgEvents (ms : List (Nat × InMsg)) : List CEvent :=
  ms.map (fun p => CEvent.msg p.1 p.2)

theorem runConn_gated_pending (cfg : ServerCfg) (st : ConnSt) (ms : List (Nat × InMsg))
    (hp : st.init = .pending) (hg : ∀ p ∈ ms, isGatedTy p.2.ty = true) :
    runConn cfg st (msgEvents ms) =
      ({ st with deferred := st.deferred ++ ms.map (fun p => Cont.gated p.1 p.2) }, []) := by
  induction ms generalizing st with
  | nil => simp [msgEvents, runConn]
  | cons p t ih =>
    have hstep : stepConn cfg st (CEvent.msg p.1 p.2) =
        ({ st with deferred := st.deferred ++ [Cont.gated p.1 p.2] }, []) :=
      handleInbound_gated_pending cfg st p.1 p.2 (hg p (List.mem_cons_self p t)) hp
    have hih := ih { st with deferred := st.deferred ++ [Cont.gated p.1 p.2] } hp
      (fun q hq => hg q (List.mem_cons_of_mem p hq))
    show runConn cfg st (CEvent.msg p.1 p.2 :: msgEvents t) = _
    simp only [runConn]
    rw [hstep]
    simp only
    rw [hih]
    simp [List.append_assoc]

theorem runConn_c3Prefix (cfg : ServerCfg) (pre post : List (Nat × InMsg))
    (initIdx : Nat) (initMsg : InMsg)
    (hoc : cfg.hasOnConnect = true) (hty : initMsg.ty = MessageType.GQL_CONNECTION_INIT)
    (hg : ∀ p ∈ pre ++ post, isGatedTy p.2.ty = true) :
    runConn cfg (initialState cfg)
        (msgEvents pre ++ CEvent.msg initIdx initMsg :: msgEvents post) =
      ({ initialState cfg with
          connectPending := true,
          deferred := pre.map (fun p => Cont.gated p.1 p.2) ++
            Cont.ackCont initMsg.id :: post.map (fun p => Cont.gated p.1 p.2) }, []) := by
  have hgpre : ∀ p ∈ pre, isGatedTy p.2.ty = true :=
    fun p h => hg p (List.mem_append_left _ h)
  have hgpost : ∀ p ∈ post, isGatedTy p.2.ty = true :=
    fun p h => hg p (List.mem_append_right _ h)
  rw [runConn_append]
  rw [runConn_gated_pending cfg (initialState cfg) pre rfl hgpre]
  simp only [runConn]
  rw [show stepConn cfg
      { initialState cfg with
        deferred := (initialState cfg).deferred ++ pre.map (fun p => Cont.gated p.1 p.2) }
      (CEvent.msg initIdx initMsg) =
    handleInbound cfg
      { initialState cfg with
        deferred := (initialState cfg).deferred ++ pre.map (fun p => Cont.gated p.1 p.2) }
      initIdx initMsg from rfl]
  rw [handleInbound_init_pending cfg _ initIdx initMsg hoc hty rfl]
  simp only
  rw [runConn_gated_pending cfg _ post rfl hgpost]
  simp [initialState, List.append_assoc]

theorem begins_cons_not (e : Ev) (l : List Ev) (h : e.isBegin = false) :
    begins (e :: l) = begins l := by
  cases e <;> simp_all [begins, Ev.isBegin, List.filterMap_cons]

/-! ## Claim C3 -/

/-- C3: in a scenario where arbitrary start/stop/data messages arrive around
a `connection_init` whose connect hook has not yet settled, (a) while the
initialization future is pending nothing at all is emitted for them — no
gated continuation runs; (b) if the future rejects, the gated continuations
never run; (c) when it settles successfully (resolves), all deferred gated
continuations run after the resolution marker, in exactly their original
arrival order. -/
theorem c3_deferral_order (cfg : ServerCfg) (pre post : List (Nat × InMsg))
    (initIdx : Nat) (initMsg : InMsg) (rejectMsg : String)
    (hoc : cfg.hasOnConnect = true)
    (hty : initMsg.ty = MessageType.GQL_CONNECTION_INIT)
    (hg : ∀ p ∈ pre ++ post, isGatedTy p.2.ty = true) :
    (runConn cfg (initialState cfg)
        (msgEvents pre ++ CEvent.msg initIdx initMsg :: msgEvents post)).2 = [] ∧
    begins (runConn cfg (initialState cfg)
        ((msgEvents pre ++ CEvent.msg initIdx initMsg :: msgEvents post) ++
          [CEvent.settle (.rejected rejectMsg)])).2 = [] ∧
    (∀ o : InitOutcome, o = .resolvedTrue ∨ o = .resolvedFalse →
      ∃ t, (runConn cfg (initialState cfg)
          ((msgEvents pre ++ CEvent.msg initIdx initMsg :: msgEvents post) ++
            [CEvent.settle o])).2 = Ev.initResolved :: t ∧
        begins t = pre.map Prod.fst ++ post.map Prod.fst) := by
  have hwholeRun := runConn_c3Prefix cfg pre post initIdx initMsg hoc hty hg
  have hfst : (runConn cfg (initialState cfg)
      (msgEvents pre ++ CEvent.msg initIdx initMsg :: msgEvents post)).1 =
      { initialState cfg with
          connectPending := true,
          deferred := pre.map (fun p => Cont.gated p.1 p.2) ++
            Cont.ackCont initMsg.id :: post.map (fun p => Cont.gated p.1 p.2) } := by
    rw [hwholeRun]
  have hsnd : (runConn cfg (initialState cfg)
      (msgEvents pre ++ CEvent.msg initIdx initMsg :: msgEvents post)).2 = [] := by
    rw [hwholeRun]
  have hsettle : ∀ o : InitOutcome,
      (stepConn cfg
        ({ initialState cfg with
            connectPending := true,
            deferred := pre.map (fun p => Cont.gated p.1 p.2) ++
              Cont.ackCont initMsg.id :: post.map (fun p => Cont.gated p.1 p.2) })
        (CEvent.settle o)).2 =
      markerOf o ::
        (flushConts cfg
          ({ initialState cfg with
              init := newInitOf o,
              connectPending := false,
              deferred := [] })
          (pre.map (fun p => Cont.gated p.1 p.2) ++
            Cont.ackCont initMsg.id :: post.map (fun p => Cont.gated p.1 p.2))).2 := by
    intro o
    show (settleInit cfg _ o).2 = _
    unfold settleInit
    rw [if_pos rfl]
    rfl
  refine ⟨hsnd, ?_, ?_⟩
  · rw [runConn_snoc, hsnd, hfst, List.nil_append, hsettle]
    rw [begins_cons_not (markerOf (InitOutcome.rejected rejectMsg)) _ rfl]
    exact (flushConts_rejected cfg _ _ rejectMsg rfl).1
  · intro o ho
    have hmarker : markerOf o = Ev.initResolved := by
      rcases ho with rfl | rfl <;> rfl
    have hb : ∃ b : Bool, newInitOf o = InitStatus.resolved b := by
      rcases ho with rfl | rfl
      · exact ⟨true, rfl⟩
      · exact ⟨false, rfl⟩
    obtain ⟨b, hbeq⟩ := hb
    rw [runConn_snoc, hsnd, hfst, List.nil_append, hsettle, hmarker]
    have hflush := flushConts_begins cfg
      ({ initialState cfg with
          init := newInitOf o,
          connectPending := false,
          deferred := [] })
      (pre.map (fun p => Cont.gated p.1 p.2) ++
        Cont.ackCont initMsg.id :: post.map (fun p => Cont.gated p.1 p.2))
      b (by rw [show ({ initialState cfg with
          init := newInitOf o,
          connectPending := false,
          deferred := [] } : ConnSt).init = newInitOf o from rfl, hbeq])
    refine ⟨_, rfl, ?_⟩
    rw [hflush.1, gatedIdxs_append, gatedIdxs_ackCont_cons, gatedIdxs_map_gated,
      gatedIdxs_map_gated]

/-- C3 witness: two stop messages deferred around the init (arrival numbers
0 and 2), then the settlement. -/
theorem c3_deferral_order_witness :
    (({ hasOnConnect := true } : ServerCfg).hasOnConnect = true ∧
      ({ id := 9, ty := MessageType.GQL_CONNECTION_INIT } : InMsg).ty =
        MessageType.GQL_CONNECTION_INIT ∧
      (∀ p ∈ ([(0, ({ id := 1, ty := MessageType.GQL_STOP } : InMsg))] ++
          [(2, ({ id := 3, ty := MessageType.GQL_STOP } : InMsg))]),
        isGatedTy p.2.ty = true)) ∧
    ((runConn { hasOnConnect := true } (initialState { hasOnConnect := true })
        (msgEvents [(0, { id := 1, ty := MessageType.GQL_STOP })] ++
          CEvent.msg 1 { id := 9, ty := MessageType.GQL_CONNECTION_INIT } ::
            msgEvents [(2, { id := 3, ty := MessageType.GQL_STOP })])).2 = [] ∧
    begins (runConn { hasOnConnect := true } (initialState { hasOnConnect := true })
        ((msgEvents [(0, { id := 1, ty := MessageType.GQL_STOP })] ++
          CEvent.msg 1 { id := 9, ty := MessageType.GQL_CONNECTION_INIT } ::
            msgEvents [(2, { id := 3, ty := MessageType.GQL_STOP })]) ++
          [CEvent.settle (.rejected "denied")])).2 = [] ∧
    (∀ o : InitOutcome, o = .resolvedTrue ∨ o = .resolvedFalse →
      ∃ t, (runConn { hasOnConnect := true } (initialState { hasOnConnect := true })
          ((msgEvents [(0, { id := 1, ty := MessageType.GQL_STOP })] ++
            CEvent.msg 1 { id := 9, ty := MessageType.GQL_CONNECTION_INIT } ::
              msgEvents [(2, { id := 3, ty := MessageType.GQL_STOP })]) ++
            [CEvent.settle o])).2 = Ev.initResolved :: t ∧
        begins t = [(0, ({ id := 1, ty := MessageType.GQL_STOP } : InMsg))].map Prod.fst ++
          [(2, ({ id := 3, ty := MessageType.GQL_STOP } : InMsg))].map Prod.fst)) :=
  ⟨⟨rfl, rfl, by decide⟩,
    c3_deferral_order { hasOnConnect := true }
      [(0, { id := 1, ty := MessageType.GQL_STOP })]
      [(2, { id := 3, ty := MessageType.GQL_STOP })] 1
      { id := 9, ty := MessageType.GQL_CONNECTION_INIT } "denied" rfl rfl (by decide)⟩

end Gws
